import Mathlib

/-!
# Verification of the form3-account-api-client transport and resource layers

This file gives a shallow embedding of the Go sources of
`renatoaraujo/form3-account-api-client` and proves properties of that
embedding.

* `httputils/httpclient.go` — the transport client (`NewClient`, `Client.Post`,
  `Client.Get`, `Client.Delete`).  The client carries injected capabilities
  (`httpClient.Do`, `bodyReader`, `respUnmarshaller`, `reqCreator`); each of
  these is opaque to the Go code, so the embedding passes the *outcome* of each
  injected call as an explicit argument.
* the `ResponseError` type of package `httputils` with its `Error()` rendering.
* `accounts/client.go` — the resource client (`CreateResource`,
  `FetchResource`, `DeleteResource`).
* the parts of Go 1.17 `net/url` that `NewClient` and `Delete` rely on
  (`ParseRequestURI`, `Values.Encode`, `URL.ResolveReference`, `URL.String`),
  modelled byte-for-byte on the Go standard library sources, with strings
  represented as their UTF-8 byte sequences (`List Nat`).

Go `error` values are modelled by `GoError`, which records enough structure to
render the message exactly as Go's `Error()` / `fmt.Errorf("%w; ...")` chain
would.
-/

namespace Form3

/-- Go `[]byte`: a byte sequence. -/
abbrev Bytes := List Nat

/-- `httputils.ResponseError` (httpclient_test.go:798-801 / 813-817):
the error record decoded from a 4xx response body; `ErrorMessage` carries the
`error_message` JSON field and `StatusCode` the HTTP status. -/
structure ResponseError where
  errorMessage : String
  statusCode : Nat
  deriving DecidableEq, Repr

/-- `(*ResponseError).Error()` (httpclient_test.go:803-808): renders
`"api failure with status code <N> and no message received"` when the message
is empty, and `"api failure with status code <N> and message: <msg>"`
otherwise. -/
def ResponseError.error (e : ResponseError) : String :=
  if e.errorMessage = "" then
    "api failure with status code " ++ toString e.statusCode ++ " and no message received"
  else
    "api failure with status code " ++ toString e.statusCode ++ " and message: " ++ e.errorMessage

/-- The other revision of `(*ResponseError).Error()` present in the sources
(httpclient_test.go:819-821): always renders
`"api failure with status code <N> and message: <msg>"`, with no special case
for an empty message. -/
def ResponseError.errorAlt (e : ResponseError) : String :=
  "api failure with status code " ++ toString e.statusCode ++ " and message: " ++ e.errorMessage

/-- `strconv.Quote`-style quoting as used by `%q`, modelled as plain double
quotes (none of the strings quoted in this development contain characters
that `%q` would escape). -/
def goQuote (s : String) : String := "\"" ++ s ++ "\""

/-- A Go `error` value as observed by this client: either a leaf error with a
fixed message (`errors.New` / `fmt.Errorf` without `%w`), a `*ResponseError`,
a wrapping error produced by `fmt.Errorf("%w; <note>", cause)`, or a
`*url.Error` (operation, URL, cause). -/
inductive GoError where
  | goMsg (s : String)
  | respErr (e : ResponseError)
  | wrapped (cause : GoError) (note : String)
  | urlErr (op : String) (url : String) (cause : GoError)
  deriving DecidableEq, Repr

/-- The string produced by calling `Error()` on the Go error:
`fmt.Errorf("%w; <note>", cause)` renders as `cause.Error() + "; " + note`,
and `*url.Error` renders as `fmt.Sprintf("%s %q: %s", op, url, err)`. -/
def GoError.message : GoError → String
  | .goMsg s => s
  | .respErr e => e.error
  | .wrapped cause note => cause.message ++ "; " ++ note
  | .urlErr op url cause => op ++ " " ++ goQuote url ++ ": " ++ cause.message

deriving instance DecidableEq for Except

/-- `*http.Response` as consumed by the transport client: the status code
together with the outcome of applying the client's injected `bodyReader`
(by default `ioutil.ReadAll`) to `response.Body`. -/
structure Response where
  statusCode : Nat
  bodyRead : Except GoError Bytes

namespace NetURL

/-!
The parts of Go 1.17 `net/url` used by the client, modelled byte-for-byte.
Go strings are represented as their byte sequences (`List Nat`); the inputs
handled here are produced by the Go string operations on UTF-8 data, and the
ASCII-range comparisons of the Go code act on single bytes exactly as below.
-/

/-- UTF-8 encoding of one character. -/
def utf8Bytes (c : Char) : List Nat :=
  let n := c.toNat
  if n < 0x80 then [n]
  else if n < 0x800 then [0xC0 + n / 0x40, 0x80 + n % 0x40]
  else if n < 0x10000 then [0xE0 + n / 0x1000, 0x80 + n / 0x40 % 0x40, 0x80 + n % 0x40]
  else [0xF0 + n / 0x40000, 0x80 + n / 0x1000 % 0x40, 0x80 + n / 0x40 % 0x40, 0x80 + n % 0x40]

/-- The UTF-8 bytes of a Lean string (a Go `string` value). -/
def strBytes (s : String) : List Nat :=
  (s.data.map utf8Bytes).flatten

/-- Render an ASCII byte sequence back as a string (used only inside
error-message text). -/
def bytesToStr (l : List Nat) : String :=
  ⟨l.map Char.ofNat⟩

def bSlash : Nat := 47
def bColon : Nat := 58
def bQuestion : Nat := 63
def bPercent : Nat := 37
def bPlus : Nat := 43
def bMinus : Nat := 45
def bDot : Nat := 46
def bAt : Nat := 64
def bLBracket : Nat := 91
def bRBracket : Nat := 93
def bAmp : Nat := 38
def bEq : Nat := 61
def bStar : Nat := 42
def bSpace : Nat := 32

def isAlphaB (c : Nat) : Bool := (97 ≤ c ∧ c ≤ 122) ∨ (65 ≤ c ∧ c ≤ 90)

def isDigitB (c : Nat) : Bool := 48 ≤ c ∧ c ≤ 57

/-- `ishex` from net/url. -/
def ishex (c : Nat) : Bool :=
  isDigitB c ∨ (97 ≤ c ∧ c ≤ 102) ∨ (65 ≤ c ∧ c ≤ 70)

/-- `unhex` from net/url. -/
def unhex (c : Nat) : Nat :=
  if 48 ≤ c ∧ c ≤ 57 then c - 48
  else if 97 ≤ c ∧ c ≤ 102 then c - 97 + 10
  else if 65 ≤ c ∧ c ≤ 70 then c - 65 + 10
  else 0

/-- `strings.HasPrefix s pat` on byte sequences. -/
def bytesBegin : List Nat → List Nat → Bool
  | _, [] => true
  | [], _ :: _ => false
  | a :: s, b :: p => a = b && bytesBegin s p

/-- `strings.HasSuffix s pat` on byte sequences. -/
def bytesEnd (s pat : List Nat) : Bool :=
  bytesBegin s.reverse pat.reverse

/-- `strings.IndexByte`. -/
def indexOfByte : List Nat → Nat → Option Nat
  | [], _ => none
  | c :: rest, b => if c = b then some 0 else (indexOfByte rest b).map (· + 1)

/-- `strings.LastIndexByte` / `strings.LastIndex` for a single byte. -/
def lastIndexByte : List Nat → Nat → Option Nat
  | [], _ => none
  | c :: rest, b =>
    match lastIndexByte rest b with
    | some i => some (i + 1)
    | none => if c = b then some 0 else none

/-- `strings.Index` for a byte-sequence pattern. -/
def indexOfSeq : List Nat → List Nat → Option Nat
  | [], pat => if bytesBegin [] pat then some 0 else none
  | c :: t, pat =>
    if bytesBegin (c :: t) pat then some 0
    else (indexOfSeq t pat).map (· + 1)

/-- `strings.Contains` for a single byte. -/
def containsByte (s : List Nat) (b : Nat) : Bool :=
  (indexOfByte s b).isSome

/-- net/url's `split(s, sep, cutc)`: split at the first occurrence of `sep`;
`cutc` drops the separator from the second half. -/
def splitB (s : List Nat) (sep : Nat) (cutc : Bool) : List Nat × List Nat :=
  match indexOfByte s sep with
  | none => (s, [])
  | some i => if cutc then (s.take i, s.drop (i + 1)) else (s.take i, s.drop i)

/-- The escape contexts of net/url used by this client (`encodePath`,
`encodeHost`, `encodeZone`, `encodeUserPassword`, `encodeQueryComponent`);
the remaining Go modes are never exercised by the client. -/
inductive Encoding where
  | path
  | host
  | zone
  | userPassword
  | queryComponent
  deriving DecidableEq, Repr

/-- `shouldEscape(c, mode)` from Go 1.17 net/url, for the modes above.
Byte values: `! $ & ' ( ) * + , ; = : [ ] < > "` =
33 36 38 39 40 41 42 43 44 59 61 58 91 93 60 62 34;
`- _ . ~` = 45 95 46 126; `$ & + , / : ; = ? @` =
36 38 43 44 47 58 59 61 63 64. -/
def shouldEscape (c : Nat) (mode : Encoding) : Bool :=
  if isAlphaB c ∨ isDigitB c then false
  else if (mode = .host ∨ mode = .zone) ∧
      c ∈ [33, 36, 38, 39, 40, 41, 42, 43, 44, 59, 61, 58, 91, 93, 60, 62, 34] then false
  else if c ∈ [45, 95, 46, 126] then false
  else if c ∈ [36, 38, 43, 44, 47, 58, 59, 61, 63, 64] then
    match mode with
    | .path => c = 63
    | .userPassword => c = 64 ∨ c = 47 ∨ c = 63 ∨ c = 58
    | .queryComponent => true
    | .host => true
    | .zone => true
  else true

def upperhexDigit (n : Nat) : Nat :=
  if n < 10 then 48 + n else 65 + (n - 10)

/-- One byte of `escape`'s output: space becomes `+` in a query component,
escaped bytes become `%XX` with upper-case hex, others pass through. -/
def escapeByte (mode : Encoding) (c : Nat) : List Nat :=
  if c = bSpace ∧ mode = .queryComponent then [bPlus]
  else if shouldEscape c mode then [bPercent, upperhexDigit (c / 16), upperhexDigit (c % 16)]
  else [c]

/-- `escape(s, mode)` from net/url.  (Go first counts the bytes to escape and
returns `s` unchanged when there are none; that fast path coincides with the
per-byte transform below.) -/
def escape (s : List Nat) (mode : Encoding) : List Nat :=
  (s.map (escapeByte mode)).flatten

/-- `url.QueryEscape`. -/
def queryEscape (s : List Nat) : List Nat :=
  escape s .queryComponent

/-- The message of a net/url `EscapeError`. -/
def escapeError (bs : List Nat) : GoError :=
  .goMsg ("invalid URL escape " ++ goQuote (bytesToStr bs))

/-- The message of a net/url `InvalidHostError`. -/
def invalidHostError (bs : List Nat) : GoError :=
  .goMsg ("invalid character " ++ goQuote (bytesToStr bs) ++ " in host name")

/-- `unescape(s, mode)` from Go 1.17 net/url: validates every `%XX` escape
(and the host/zone character restrictions) and decodes the string.  `'2'` =
50 and `'5'` = 53, so `a = 50 ∧ b = 53` is the `"%25"` test. -/
def unescape : List Nat → Encoding → Except GoError (List Nat)
  | [], _ => .ok []
  | c :: rest, mode =>
    if c = bPercent then
      match rest with
      | a :: b :: rest2 =>
        if ¬(ishex a ∧ ishex b) then .error (escapeError [bPercent, a, b])
        else if mode = .host ∧ unhex a < 8 ∧ ¬(a = 50 ∧ b = 53) then
          .error (escapeError [bPercent, a, b])
        else if mode = .zone ∧ ¬(a = 50 ∧ b = 53) ∧ unhex a * 16 + unhex b ≠ bSpace ∧
            shouldEscape (unhex a * 16 + unhex b) .host then
          .error (escapeError [bPercent, a, b])
        else (unescape rest2 mode).map ((unhex a * 16 + unhex b) :: ·)
      | _ => .error (escapeError (bPercent :: rest))
    else if c = bPlus then
      (unescape rest mode).map ((if mode = .queryComponent then bSpace else bPlus) :: ·)
    else if (mode = .host ∨ mode = .zone) ∧ c < 0x80 ∧ shouldEscape c mode then
      .error (invalidHostError [c])
    else
      (unescape rest mode).map (c :: ·)

/-- `validOptionalPort` from net/url. -/
def validOptionalPort (port : List Nat) : Bool :=
  match port with
  | [] => true
  | c :: rest => c = bColon && rest.all fun b => isDigitB b

/-- `validUserinfo` from net/url.  Byte values of
`- . _ : ~ ! $ & ' ( ) * + , ; = % @`:
45 46 95 58 126 33 36 38 39 40 41 42 43 44 59 61 37 64. -/
def validUserinfo (s : List Nat) : Bool :=
  s.all fun r =>
    isAlphaB r ∨ isDigitB r ∨
      r ∈ [45, 46, 95, 58, 126, 33, 36, 38, 39, 40, 41, 42, 43, 44, 59, 61, 37, 64]

/-- `stringContainsCTLByte` from net/url. -/
def containsCTLByte (s : List Nat) : Bool :=
  s.any fun b => b < 32 ∨ b = 127

/-- `url.URL`, restricted to the fields this client can reach (the fragment
fields are never set by it).  `opq` is Go's `Opaque` field and `user` holds
the userinfo as username plus optional password. -/
structure URL where
  scheme : List Nat := []
  opq : List Nat := []
  user : Option (List Nat × Option (List Nat)) := none
  host : List Nat := []
  path : List Nat := []
  rawPath : List Nat := []
  forceQuery : Bool := false
  rawQuery : List Nat := []
  deriving DecidableEq, Repr

/-- `parseHost` from Go 1.17 net/url: bracketed IPv6 literals with optional
`%25`-introduced zone, optional `:port` validation, then host-mode
unescaping. -/
def parseHost (host : List Nat) : Except GoError (List Nat) :=
  if bytesBegin host [bLBracket] then
    match lastIndexByte host bRBracket with
    | none => .error (.goMsg "missing ']' in host")
    | some i =>
      let colonPort := host.drop (i + 1)
      if ¬ validOptionalPort colonPort then
        .error (.goMsg ("invalid port " ++ goQuote (bytesToStr colonPort) ++ " after host"))
      else
        match indexOfSeq (host.take i) [bPercent, 50, 53] with
        | some zone => do
          let host1 ← unescape (host.take zone) .host
          let host2 ← unescape ((host.take i).drop zone) .zone
          let host3 ← unescape (host.drop i) .host
          .ok (host1 ++ host2 ++ host3)
        | none => unescape host .host
  else
    match lastIndexByte host bColon with
    | some i =>
      let colonPort := host.drop i
      if ¬ validOptionalPort colonPort then
        .error (.goMsg ("invalid port " ++ goQuote (bytesToStr colonPort) ++ " after host"))
      else unescape host .host
    | none => unescape host .host

/-- `parseAuthority` from Go 1.17 net/url: an optional userinfo before the
last `@`, validated and unescaped, then the host. -/
def parseAuthority (authority : List Nat) :
    Except GoError (Option (List Nat × Option (List Nat)) × List Nat) :=
  match lastIndexByte authority bAt with
  | none => do
    let host ← parseHost authority
    .ok (none, host)
  | some i => do
    let host ← parseHost (authority.drop (i + 1))
    let userinfo := authority.take i
    if ¬ validUserinfo userinfo then
      .error (.goMsg "net/url: invalid userinfo")
    else if ¬ containsByte userinfo bColon then do
      let u ← unescape userinfo .userPassword
      .ok (some (u, none), host)
    else do
      let (username, password) := splitB userinfo bColon true
      let un ← unescape username .userPassword
      let pw ← unescape password .userPassword
      .ok (some (un, some pw), host)

/-- The scan inside `getScheme`: `raw` is the whole input, the second
argument the unscanned remainder, the third the current index. -/
def getSchemeLoop (raw : List Nat) : List Nat → Nat → Except GoError (List Nat × List Nat)
  | [], _ => .ok ([], raw)
  | c :: rest, i =>
    if isAlphaB c then getSchemeLoop raw rest (i + 1)
    else if isDigitB c ∨ c = bPlus ∨ c = bMinus ∨ c = bDot then
      if i = 0 then .ok ([], raw) else getSchemeLoop raw rest (i + 1)
    else if c = bColon then
      if i = 0 then .error (.goMsg "missing protocol scheme")
      else .ok (raw.take i, raw.drop (i + 1))
    else .ok ([], raw)

/-- `getScheme` from net/url. -/
def getScheme (raw : List Nat) : Except GoError (List Nat × List Nat) :=
  getSchemeLoop raw raw 0

/-- `strings.ToLower` on a scheme (`getScheme` admits only ASCII bytes
there). -/
def lowerByte (c : Nat) : Nat :=
  if 65 ≤ c ∧ c ≤ 90 then c + 32 else c

def toLowerB (s : List Nat) : List Nat :=
  s.map lowerByte

/-- `(*URL).setPath`: unescapes `p` into `Path` and keeps `p` as `RawPath`
only when the default escaping of `Path` differs from `p`. -/
def setPath (p : List Nat) : Except GoError (List Nat × List Nat) := do
  let path ← unescape p .path
  if escape path .path = p then .ok (path, []) else .ok (path, p)

/-- `url.parse(rawURL, viaRequest=true)` from Go 1.17, i.e. the code path of
`url.ParseRequestURI`:  CTL check, empty check, `"*"`, scheme extraction and
lowering, `?`-splitting (with the lone-trailing-`?` `ForceQuery` case), the
opaque / invalid-URI cases for a rest not starting in `/`, authority parsing
when a scheme is present and the rest starts with `//`, and finally
`setPath`.  `'*'` = 42, `'?'` = 63, `'/'` = 47. -/
def parse (raw : List Nat) : Except GoError URL :=
  if containsCTLByte raw then .error (.goMsg "net/url: invalid control character in URL")
  else if raw = [] then .error (.goMsg "empty url")
  else if raw = [bStar] then .ok { path := [bStar] }
  else do
    let (scheme0, rest0) ← getScheme raw
    let scheme := toLowerB scheme0
    let (rest, forceQuery, rawQuery) :=
      if bytesEnd rest0 [bQuestion] ∧ ¬ containsByte (rest0.take (rest0.length - 1)) bQuestion then
        (rest0.take (rest0.length - 1), true, ([] : List Nat))
      else
        let (r, q) := splitB rest0 bQuestion true
        (r, false, q)
    if ¬ bytesBegin rest [bSlash] then
      if scheme ≠ [] then
        .ok { scheme := scheme, opq := rest, forceQuery := forceQuery, rawQuery := rawQuery }
      else
        .error (.goMsg "invalid URI for request")
    else do
      let (user, host, rest2) ←
        if scheme ≠ [] ∧ bytesBegin rest [bSlash, bSlash] then do
          let (authority, rest1) := splitB (rest.drop 2) bSlash false
          let (u, h) ← parseAuthority authority
          pure (u, h, rest1)
        else
          pure (none, ([] : List Nat), rest)
      let (path, rawPath) ← setPath rest2
      .ok { scheme := scheme, user := user, host := host, path := path,
            rawPath := rawPath, forceQuery := forceQuery, rawQuery := rawQuery }

/-- `url.ParseRequestURI` (called by `httputils.NewClient`): `parse` with the
failure wrapped in `&url.Error{"parse", rawURL, err}`. -/
def parseRequestURI (rawURL : String) : Except GoError URL :=
  match parse (strBytes rawURL) with
  | .error e => .error (GoError.urlErr "parse" rawURL e)
  | .ok u => .ok u

/-- `validEncoded` from net/url.  `! $ & ' ( ) * + , ; = : @` =
33 36 38 39 40 41 42 43 44 59 61 58 64. -/
def validEncoded (s : List Nat) (mode : Encoding) : Bool :=
  s.all fun c =>
    if c ∈ [33, 36, 38, 39, 40, 41, 42, 43, 44, 59, 61, 58, 64] then true
    else if c = bLBracket ∨ c = bRBracket then true
    else if c = bPercent then true
    else ¬ shouldEscape c mode

/-- `(*URL).EscapedPath`. -/
def URL.escapedPath (u : URL) : List Nat :=
  if u.rawPath ≠ [] ∧ validEncoded u.rawPath .path ∧ unescape u.rawPath .path = .ok u.path then
    u.rawPath
  else if u.path = [bStar] then [bStar]
  else escape u.path .path

/-- `strings.Split` on one byte (the segment sequence consumed by the
`resolvePath` loop). -/
def splitOnByte (sep : Nat) : List Nat → List (List Nat)
  | [] => [[]]
  | c :: rest =>
    match splitOnByte sep rest with
    | [] => [[]]
    | seg :: segs => if c = sep then [] :: seg :: segs else (c :: seg) :: segs

/-- One iteration of the Go 1.17 `resolvePath` loop on the element `elem`,
acting on the builder contents `dst` (which always begins with `/`) and the
`first` flag: `"."` is dropped, `".."` removes the last written segment, and
anything else (including an empty segment) is appended. -/
def resolveElem (elem dst : List Nat) (first : Bool) : List Nat × Bool :=
  if elem = [bDot] then (dst, false)
  else if elem = [bDot, bDot] then
    let str := dst.drop 1
    match lastIndexByte str bSlash with
    | none => ([bSlash], true)
    | some idx => (bSlash :: str.take idx, first)
  else
    ((if first then dst else dst ++ [bSlash]) ++ elem, false)

def resolveLoop : List (List Nat) → List Nat → Bool → List Nat
  | [], dst, _ => dst
  | e :: rest, dst, first =>
    let (dst1, first1) := resolveElem e dst first
    resolveLoop rest dst1 first1

/-- `resolvePath(base, ref)` from Go 1.17 net/url: merge `ref` onto `base`,
remove `.` and `..` segments, keep a trailing slash when the last segment was
a dot segment, and collapse a doubled leading slash. -/
def resolvePath (base ref : List Nat) : List Nat :=
  let full :=
    if ref = [] then base
    else if ¬ bytesBegin ref [bSlash] then
      (match lastIndexByte base bSlash with
       | none => []
       | some i => base.take (i + 1)) ++ ref
    else ref
  if full = [] then []
  else
    let segs := splitOnByte bSlash full
    let dst := resolveLoop segs [bSlash] true
    let last := segs.getLastD []
    let dst2 := if last = [bDot] ∨ last = [bDot, bDot] then dst ++ [bSlash] else dst
    if dst2.length > 1 ∧ dst2.get? 1 = some bSlash then dst2.drop 1 else dst2

/-- `(*URL).setPath` as called from `ResolveReference`, where Go discards the
error: on failure the URL is left unchanged. -/
def setPathIgnoringError (u : URL) (p : List Nat) : URL :=
  match setPath p with
  | .ok (path, rawPath) => { u with path := path, rawPath := rawPath }
  | .error _ => u

/-- `(*URL).ResolveReference` from Go 1.17 (fragment fields omitted; the
client never sets them). -/
def resolveReference (u ref : URL) : URL :=
  let url0 := ref
  let url1 := if ref.scheme = [] then { url0 with scheme := u.scheme } else url0
  if ref.scheme ≠ [] ∨ ref.host ≠ [] ∨ ref.user ≠ none then
    setPathIgnoringError url1 (resolvePath ref.escapedPath [])
  else if ref.opq ≠ [] then
    { url1 with user := none, host := [], path := [] }
  else
    let url2 :=
      if ref.path = [] ∧ ¬ ref.forceQuery ∧ ref.rawQuery = [] then
        { url1 with rawQuery := u.rawQuery }
      else url1
    let url3 := { url2 with host := u.host, user := u.user }
    setPathIgnoringError url3 (resolvePath u.escapedPath ref.escapedPath)

/-- `(*Userinfo).String`: the username, then `:password` when a password was
set, escaped in `encodeUserPassword` mode. -/
def userinfoString : Option (List Nat × Option (List Nat)) → List Nat
  | none => []
  | some (un, none) => escape un .userPassword
  | some (un, some pw) => escape un .userPassword ++ [bColon] ++ escape pw .userPassword

/-- `(*URL).String` from Go 1.17 (fragment section omitted; the client never
sets fragments). -/
def URL.string (u : URL) : List Nat :=
  let bufScheme := if u.scheme ≠ [] then u.scheme ++ [bColon] else []
  let bufMain :=
    if u.opq ≠ [] then bufScheme ++ u.opq
    else
      let bufAuth :=
        if u.scheme ≠ [] ∨ u.host ≠ [] ∨ u.user ≠ none then
          let b1 :=
            if u.host ≠ [] ∨ u.path ≠ [] ∨ u.user ≠ none then
              bufScheme ++ [bSlash, bSlash]
            else bufScheme
          let b2 :=
            match u.user with
            | none => b1
            | some ui => b1 ++ userinfoString (some ui) ++ [bAt]
          if u.host ≠ [] then b2 ++ escape u.host .host else b2
        else bufScheme
      let path := u.escapedPath
      let b3 :=
        if path ≠ [] ∧ ¬ bytesBegin path [bSlash] ∧ u.host ≠ [] then bufAuth ++ [bSlash]
        else bufAuth
      let b4 :=
        if b3 = [] then
          match indexOfByte path bColon with
          | some i =>
            if indexOfByte (path.take i) bSlash = none then b3 ++ [bDot, bSlash] else b3
          | none => b3
        else b3
      b4 ++ path
  if u.forceQuery ∨ u.rawQuery ≠ [] then bufMain ++ [bQuestion] ++ u.rawQuery
  else bufMain

/-- Byte-lexicographic `≤` on byte sequences — the order `sort.Strings` uses
(Go string comparison is byte-wise). -/
def bytesLe : List Nat → List Nat → Bool
  | [], _ => true
  | _ :: _, [] => false
  | a :: s, b :: t => if a < b then true else if b < a then false else bytesLe s t

def insertSorted (x : List Nat) : List (List Nat) → List (List Nat)
  | [] => [x]
  | y :: rest => if bytesLe x y then x :: y :: rest else y :: insertSorted x rest

/-- `sort.Strings`: ascending byte-lexicographic order (insertion sort; any
correct sort gives the same list). -/
def sortBytes : List (List Nat) → List (List Nat)
  | [] => []
  | x :: rest => insertSorted x (sortBytes rest)

/-- Go map lookup `v[k]` on an association list whose keys are unique. -/
def assocFind (k : List Nat) : List (List Nat × List Nat) → List Nat
  | [] => []
  | (k1, v) :: rest => if k1 = k then v else assocFind k rest

def joinWith (sep : List Nat) : List (List Nat) → List Nat
  | [] => []
  | [x] => x
  | x :: rest => x ++ sep ++ joinWith sep rest

/-- `url.Values.Encode` for the `Values` built by `Client.Delete`, which
`Add`s each entry of a `map[string]string` (so every key holds exactly one
value): collect the keys, sort them (`sort.Strings`), and emit
`<QueryEscape k>=<QueryEscape v[k]>` joined by `&`.  The argument is the
key/value pairs in Go-map iteration order. -/
def valuesEncode (pairs : List (List Nat × List Nat)) : List Nat :=
  joinWith [bAmp]
    ((sortBytes (pairs.map Prod.fst)).map fun k =>
      queryEscape k ++ [bEq] ++ queryEscape (assocFind k pairs))

end NetURL

namespace Httputils

/-- `Client.Post` (httpclient.go:173-205) after the request URL has been
built.  `reqCreated` is the outcome of the injected `reqCreator`
(`http.NewRequest`), `doResult` the outcome of `httpClient.Do`, and
`respUnmarshaller` the client's injected unmarshalling function
(`json.Unmarshal` by default) decoding a body into a `ResponseError`.
Status 201 returns the body bytes; 409 and 400 decode the body as a
`ResponseError` whose status code is overwritten with the response status;
every other status yields `"unexpected status code <N>"`. -/
def post (respUnmarshaller : Bytes → Except GoError ResponseError)
    (reqCreated : Except GoError Unit) (doResult : Except GoError Response) :
    Except GoError Bytes :=
  match reqCreated with
  | .error e => .error e
  | .ok _ =>
    match doResult with
    | .error e => .error (GoError.wrapped e "failed to post data")
    | .ok response =>
      match response.bodyRead with
      | .error e => .error (GoError.wrapped e "failed to read response body")
      | .ok respBody =>
        if response.statusCode = 201 then
          .ok respBody
        else if response.statusCode = 409 ∨ response.statusCode = 400 then
          match respUnmarshaller respBody with
          | .error e => .error e
          | .ok errRes => .error (GoError.respErr { errRes with statusCode := response.statusCode })
        else
          .error (GoError.goMsg ("unexpected status code " ++ toString response.statusCode))

/-- `Client.Get` (httpclient.go:208-240), embedded like `post`.  A failure of
`httpClient.Do` is returned unwrapped (unlike `Post`); status 200 returns the
body bytes; 404 and 400 decode a `ResponseError`; anything else yields
`"unexpected status code <N>"`. -/
def get (respUnmarshaller : Bytes → Except GoError ResponseError)
    (reqCreated : Except GoError Unit) (doResult : Except GoError Response) :
    Except GoError Bytes :=
  match reqCreated with
  | .error e => .error e
  | .ok _ =>
    match doResult with
    | .error e => .error e
    | .ok response =>
      match response.bodyRead with
      | .error e => .error (GoError.wrapped e "failed to read response body")
      | .ok respBody =>
        if response.statusCode = 200 then
          .ok respBody
        else if response.statusCode = 404 ∨ response.statusCode = 400 then
          match respUnmarshaller respBody with
          | .error e => .error e
          | .ok errRes => .error (GoError.respErr { errRes with statusCode := response.statusCode })
        else
          .error (GoError.goMsg ("unexpected status code " ++ toString response.statusCode))

/-- `Client.Delete` (httpclient.go:243-282), embedded like `post`; it returns
only an error (`none` = Go `nil`).  Status 204 succeeds; 400 reads and decodes
the body; 404 ignores the body entirely and synthesizes
`ResponseError{ErrorMessage: "not found", StatusCode: 404}`; anything else
yields `"unexpected status code <N>"`.  Note that the body is read only in the
400 branch. -/
def delete (respUnmarshaller : Bytes → Except GoError ResponseError)
    (reqCreated : Except GoError Unit) (doResult : Except GoError Response) :
    Option GoError :=
  match reqCreated with
  | .error e => some e
  | .ok _ =>
    match doResult with
    | .error e => some e
    | .ok response =>
      if response.statusCode = 204 then
        none
      else if response.statusCode = 400 then
        match response.bodyRead with
        | .error e => some (GoError.wrapped e "failed to read response body")
        | .ok respBody =>
          match respUnmarshaller respBody with
          | .error e => some e
          | .ok errRes => some (GoError.respErr { errRes with statusCode := response.statusCode })
      else if response.statusCode = 404 then
        some (GoError.respErr { errorMessage := "not found", statusCode := 404 })
      else
        some (GoError.goMsg ("unexpected status code " ++ toString response.statusCode))

/-- The state of `httputils.Client` relevant to URL construction: `NewClient`
(httpclient.go:160-169) stores a `url.URL` holding only the `Scheme` and
`Host` of the parsed base URI, plus the timeout handed to the underlying
`http.Client`.  The injected function fields are modelled as arguments of the
operations. -/
structure Client where
  baseScheme : List Nat
  baseHost : List Nat
  timeoutSeconds : Int
  deriving DecidableEq, Repr

/-- `httputils.NewClient` (httpclient.go:150-170): parse the base URI with
`url.ParseRequestURI`; on failure wrap the cause as
`"<cause>; invalid base uri"`; on success keep only scheme and host. -/
def newClient (baseURI : String) (timeout : Int) : Except GoError Client :=
  match NetURL.parseRequestURI baseURI with
  | .error e => .error (GoError.wrapped e "invalid base uri")
  | .ok parsedBaseURI =>
    .ok { baseScheme := parsedBaseURI.scheme, baseHost := parsedBaseURI.host,
          timeoutSeconds := timeout }

/-- The request URL built by `Client.Delete` (httpclient.go:244-248): the
query map's entries are `Add`ed to a `url.Values` in Go-map iteration order
`queryIter` and `Encode`d, and the reference `{Path: resourcePath, RawQuery:
rawQuery}` is resolved against the stored base URL and rendered with
`URL.String`. -/
def deleteRequestURL (c : Client) (resourcePath : List Nat)
    (queryIter : List (List Nat × List Nat)) : List Nat :=
  let rawQuery := NetURL.valuesEncode queryIter
  (NetURL.resolveReference
      { scheme := c.baseScheme, host := c.baseHost }
      { path := resourcePath, rawQuery := rawQuery }).string

end Httputils

/-- `strings.Contains`-style check, on explicit character lists: does `l`
start with `sub`? -/
def charsBegin : List Char → List Char → Bool
  | _, [] => true
  | [], _ :: _ => false
  | a :: l, b :: m => a = b && charsBegin l m

/-- Does `l` contain `sub` as a contiguous run? -/
def charsHaveSub : List Char → List Char → Bool
  | [], sub => charsBegin [] sub
  | a :: t, sub => charsBegin (a :: t) sub || charsHaveSub t sub

/-- `strings.Contains s sub`: substring containment on Lean strings. -/
def strContains (s sub : String) : Bool :=
  charsHaveSub s.data sub.data

namespace Accounts

/-- `accounts.AccountData` (accounts/fetch.go / client.go): the domain record;
the client does not interpret its fields, so it is carried opaquely. -/
structure AccountData where
  blob : Bytes
  deriving DecidableEq, Repr

/-- `Client.CreateResource` (accounts/client.go:40-59).  `marshalled` is the
outcome of the injected `payloadMarshaller` (`json.Marshal`) on the request
envelope; `postF` the outcome of `http.Post` on the marshalled payload;
`unmarshal` the outcome of the injected `respUnmarshaller` (`json.Unmarshal`)
decoding the response envelope and extracting its `Data` field.  A marshal
failure wraps the cause with "unable to convert account data payload"; a Post
failure wraps it with "unable to create resource"; an unmarshal failure is
replaced by `errors.New("failed to unmarshal response data")`. -/
def createResource (marshalled : Except GoError Bytes)
    (postF : Bytes → Except GoError Bytes)
    (unmarshal : Bytes → Except GoError AccountData) : Except GoError AccountData :=
  match marshalled with
  | .error e => .error (GoError.wrapped e "unable to convert account data payload")
  | .ok requestPayload =>
    match postF requestPayload with
    | .error e => .error (GoError.wrapped e "unable to create resource")
    | .ok response =>
      match unmarshal response with
      | .error _ => .error (GoError.goMsg "failed to unmarshal response data")
      | .ok d => .ok d

/-- `Client.FetchResource` (accounts/client.go:62-75).  `getResult` is the
outcome of `http.Get` on the resource path; a Get failure wraps the cause with
"unable to fetch resource"; an unmarshal failure is replaced by
`errors.New("failed to unmarshal response data")`. -/
def fetchResource (getResult : Except GoError Bytes)
    (unmarshal : Bytes → Except GoError AccountData) : Except GoError AccountData :=
  match getResult with
  | .error e => .error (GoError.wrapped e "unable to fetch resource")
  | .ok response =>
    match unmarshal response with
    | .error _ => .error (GoError.goMsg "failed to unmarshal response data")
    | .ok d => .ok d

/-- `Client.DeleteResource` (accounts/client.go:78-88).  `deleteResult` is the
outcome of `http.Delete` (`none` = Go `nil`); a failure wraps the cause with
"unable to delete resource". -/
def deleteResource (deleteResult : Option GoError) : Option GoError :=
  match deleteResult with
  | some e => some (GoError.wrapped e "unable to delete resource")
  | none => none

end Accounts

/-! ## Helper lemmas -/

theorem charsBegin_self_append (l m : List Char) : charsBegin (l ++ m) l = true := by
  induction l with
  | nil => cases m <;> rfl
  | cons a t ih => simp [charsBegin, ih]

theorem charsHaveSub_of_begin (l sub : List Char) (h : charsBegin l sub = true) :
    charsHaveSub l sub = true := by
  cases l with
  | nil => exact h
  | cons a t => simp [charsHaveSub, h]

/-- A `fmt.Errorf("%w; note", cause)` error's rendered message contains the
cause's message. -/
theorem wrapped_message_contains (e : GoError) (note : String) :
    strContains (GoError.message (.wrapped e note)) e.message = true := by
  have hdata : (GoError.message (.wrapped e note)).data =
      e.message.data ++ ("; ".data ++ note.data) := by
    simp [GoError.message, String.data_append]
  unfold strContains
  rw [hdata]
  exact charsHaveSub_of_begin _ _ (charsBegin_self_append _ _)

/-- The two revisions of `(*ResponseError).Error()` agree whenever the message
is non-empty. -/
theorem responseError_error_revisions_agree (e : ResponseError)
    (h : e.errorMessage ≠ "") : e.error = e.errorAlt := by
  simp [ResponseError.error, ResponseError.errorAlt, h]

namespace NetURL

theorem bytesLe_cons (x y : Nat) (s t : List Nat) :
    bytesLe (x :: s) (y :: t) = true ↔ x < y ∨ (x = y ∧ bytesLe s t = true) := by
  simp only [bytesLe]
  split_ifs with h1 h2
  · simp [h1]
  · constructor
    · intro h
      exact absurd h (by simp)
    · rintro (h | ⟨h, _⟩) <;> omega
  · have hxy : x = y := by omega
    subst hxy
    simp

theorem bytesLe_trans : ∀ a b c : List Nat,
    bytesLe a b = true → bytesLe b c = true → bytesLe a c = true
  | [], _, _, _, _ => rfl
  | _ :: _, [], _, h1, _ => absurd h1 (by simp [bytesLe])
  | _ :: _, _ :: _, [], _, h2 => absurd h2 (by simp [bytesLe])
  | x :: s, y :: t, z :: u, h1, h2 => by
    rw [bytesLe_cons] at h1 h2 ⊢
    rcases h1 with h1 | ⟨rfl, h1⟩
    · rcases h2 with h2 | ⟨rfl, h2⟩
      · exact Or.inl (Nat.lt_trans h1 h2)
      · exact Or.inl h1
    · rcases h2 with h2 | ⟨rfl, h2⟩
      · exact Or.inl h2
      · exact Or.inr ⟨rfl, bytesLe_trans s t u h1 h2⟩

theorem bytesLe_total : ∀ a b : List Nat, bytesLe a b = true ∨ bytesLe b a = true
  | [], _ => Or.inl rfl
  | _ :: _, [] => Or.inr rfl
  | x :: s, y :: t => by
    rcases Nat.lt_trichotomy x y with h | rfl | h
    · exact Or.inl ((bytesLe_cons x y s t).mpr (Or.inl h))
    · rcases bytesLe_total s t with h | h
      · exact Or.inl ((bytesLe_cons x x s t).mpr (Or.inr ⟨rfl, h⟩))
      · exact Or.inr ((bytesLe_cons x x t s).mpr (Or.inr ⟨rfl, h⟩))
    · exact Or.inr ((bytesLe_cons y x t s).mpr (Or.inl h))

theorem bytesLe_antisymm : ∀ a b : List Nat,
    bytesLe a b = true → bytesLe b a = true → a = b
  | [], [], _, _ => rfl
  | [], _ :: _, _, h2 => absurd h2 (by simp [bytesLe])
  | _ :: _, [], h1, _ => absurd h1 (by simp [bytesLe])
  | x :: s, y :: t, h1, h2 => by
    rw [bytesLe_cons] at h1 h2
    rcases h1 with h1 | ⟨rfl, h1⟩
    · rcases h2 with h2 | ⟨h2, _⟩ <;> omega
    · rcases h2 with h2 | ⟨_, h2⟩
      · omega
      · rw [bytesLe_antisymm s t h1 h2]

theorem insertSorted_perm (x : List Nat) (l : List (List Nat)) :
    (insertSorted x l).Perm (x :: l) := by
  induction l with
  | nil => exact List.Perm.refl _
  | cons y rest ih =>
    by_cases h : bytesLe x y = true
    · simp only [insertSorted]
      rw [if_pos h]
    · simp only [insertSorted]
      rw [if_neg h]
      exact (ih.cons y).trans (List.Perm.swap x y rest)

theorem sortBytes_perm (l : List (List Nat)) : (sortBytes l).Perm l := by
  induction l with
  | nil => exact List.Perm.refl _
  | cons x rest ih =>
    exact (insertSorted_perm x (sortBytes rest)).trans (ih.cons x)

theorem insertSorted_pairwise (x : List Nat) :
    ∀ l : List (List Nat), l.Pairwise (fun a b => bytesLe a b = true) →
      (insertSorted x l).Pairwise (fun a b => bytesLe a b = true)
  | [], _ => by simp [insertSorted]
  | y :: rest, h => by
    rw [List.pairwise_cons] at h
    obtain ⟨hy, hrest⟩ := h
    by_cases hxy : bytesLe x y = true
    · simp only [insertSorted]
      rw [if_pos hxy, List.pairwise_cons]
      refine ⟨?_, List.pairwise_cons.mpr ⟨hy, hrest⟩⟩
      intro b hb
      rcases List.mem_cons.mp hb with rfl | hb
      · exact hxy
      · exact bytesLe_trans x y b hxy (hy b hb)
    · have hyx : bytesLe y x = true := (bytesLe_total x y).resolve_left hxy
      simp only [insertSorted]
      rw [if_neg hxy, List.pairwise_cons]
      refine ⟨?_, insertSorted_pairwise x rest hrest⟩
      intro b hb
      have hb1 : b ∈ x :: rest := (insertSorted_perm x rest).mem_iff.mp hb
      rcases List.mem_cons.mp hb1 with rfl | hb1
      · exact hyx
      · exact hy b hb1

theorem sortBytes_pairwise :
    ∀ l : List (List Nat), (sortBytes l).Pairwise (fun a b => bytesLe a b = true)
  | [] => List.Pairwise.nil
  | x :: rest => insertSorted_pairwise x _ (sortBytes_pairwise rest)

/-- Two key-sorted lists that are permutations of each other are equal. -/
theorem sorted_perm_eq : ∀ l1 l2 : List (List Nat),
    l1.Perm l2 → l1.Pairwise (fun a b => bytesLe a b = true) →
    l2.Pairwise (fun a b => bytesLe a b = true) → l1 = l2
  | [], _, hp, _, _ => (hp.symm.eq_nil).symm
  | _ :: _, [], hp, _, _ => by simp at hp
  | x :: t1, y :: t2, hp, h1, h2 => by
    rw [List.pairwise_cons] at h1 h2
    obtain ⟨hx1, hp1⟩ := h1
    obtain ⟨hy2, hp2⟩ := h2
    have hxy : x = y := by
      have hxm : x ∈ y :: t2 := hp.mem_iff.mp (List.mem_cons_self x t1)
      have hym : y ∈ x :: t1 := hp.symm.mem_iff.mp (List.mem_cons_self y t2)
      rcases List.mem_cons.mp hxm with h | hxin
      · exact h
      · rcases List.mem_cons.mp hym with h | hyin
        · exact h.symm
        · exact bytesLe_antisymm x y (hx1 y hyin) (hy2 x hxin)
    subst hxy
    rw [sorted_perm_eq t1 t2 hp.cons_inv hp1 hp2]

theorem assocFind_eq_of_mem : ∀ (pairs : List (List Nat × List Nat)) (k v : List Nat),
    (k, v) ∈ pairs → (pairs.map Prod.fst).Nodup → assocFind k pairs = v
  | [], _, _, h, _ => absurd h (List.not_mem_nil _)
  | (k1, v1) :: rest, k, v, hmem, hnodup => by
    rw [List.map_cons, List.nodup_cons] at hnodup
    obtain ⟨hk1, hrest⟩ := hnodup
    rcases List.mem_cons.mp hmem with heq | hmem1
    · injection heq with e1 e2
      subst e1
      subst e2
      simp [assocFind]
    · have hk : k1 ≠ k := by
        intro h
        subst h
        exact hk1 (List.mem_map.mpr ⟨(k1, v), hmem1, rfl⟩)
      simp only [assocFind]
      rw [if_neg hk]
      exact assocFind_eq_of_mem rest k v hmem1 hrest

theorem assocFind_not_mem : ∀ (pairs : List (List Nat × List Nat)) (k : List Nat),
    k ∉ pairs.map Prod.fst → assocFind k pairs = []
  | [], _, _ => rfl
  | (k1, v1) :: rest, k, h => by
    rw [List.map_cons] at h
    have hk : k1 ≠ k := fun he => h (he ▸ List.mem_cons_self _ _)
    simp only [assocFind]
    rw [if_neg hk]
    exact assocFind_not_mem rest k fun hm => h (List.mem_cons_of_mem _ hm)

/-- With duplicate-free keys (a Go map), the lookup is invariant under
reordering the pairs. -/
theorem assocFind_perm (q1 q2 : List (List Nat × List Nat)) (hperm : q1.Perm q2)
    (hnodup : (q1.map Prod.fst).Nodup) (k : List Nat) :
    assocFind k q1 = assocFind k q2 := by
  have hnodup2 : (q2.map Prod.fst).Nodup := ((hperm.map Prod.fst).nodup_iff).mp hnodup
  by_cases hk : k ∈ q1.map Prod.fst
  · obtain ⟨⟨k1, v⟩, hmem, hfst⟩ := List.mem_map.mp hk
    dsimp at hfst
    subst hfst
    rw [assocFind_eq_of_mem q1 k1 v hmem hnodup,
      assocFind_eq_of_mem q2 k1 v (hperm.mem_iff.mp hmem) hnodup2]
  · rw [assocFind_not_mem q1 k hk,
      assocFind_not_mem q2 k fun h => hk (((hperm.map Prod.fst).mem_iff).mpr h)]

/-- `Values.Encode` depends only on the set of key/value pairs, not on their
iteration order: the keys are sorted before emission and each key's value is
determined by the pair set. -/
theorem valuesEncode_perm (q1 q2 : List (List Nat × List Nat)) (hperm : q1.Perm q2)
    (hnodup : (q1.map Prod.fst).Nodup) :
    valuesEncode q1 = valuesEncode q2 := by
  have hsort : sortBytes (q1.map Prod.fst) = sortBytes (q2.map Prod.fst) :=
    sorted_perm_eq _ _
      ((sortBytes_perm _).trans ((hperm.map Prod.fst).trans (sortBytes_perm _).symm))
      (sortBytes_pairwise _) (sortBytes_pairwise _)
  have hfun : (fun k => queryEscape k ++ [bEq] ++ queryEscape (assocFind k q1)) =
      (fun k => queryEscape k ++ [bEq] ++ queryEscape (assocFind k q2)) :=
    funext fun k => by rw [assocFind_perm q1 q2 hperm hnodup k]
  unfold valuesEncode
  rw [hsort, hfun]

end NetURL

/-! ## Claim theorems -/

/-- C1, counterexample: a 200 response (squarely in the 200-299 success range)
with body bytes `[1,2,3]` makes `Post` return the error
`"unexpected status code 200"` rather than the body, because `Post` accepts
only status 201. -/
theorem post_200_counterexample :
    Httputils.post (fun _ => .ok { errorMessage := "", statusCode := 0 }) (.ok ())
        (.ok { statusCode := 200, bodyRead := .ok [1, 2, 3] }) =
      .error (GoError.goMsg "unexpected status code 200") ∧
    Httputils.post (fun _ => .ok { errorMessage := "", statusCode := 0 }) (.ok ())
        (.ok { statusCode := 200, bodyRead := .ok [1, 2, 3] }) ≠
      .ok [1, 2, 3] := by
  constructor
  · rfl
  · intro h
    simp [Httputils.post] at h

/-- C1, amended: within the success range 200-299 each verb succeeds only at
its single expected status — `Post` returns the exact body bytes at 201 only,
`Get` at 200 only, and `Delete` returns no error at 204 only; every other
status in the range yields the error `"unexpected status code <N>"`. -/
theorem success_range_exact_codes
    (u : Bytes → Except GoError ResponseError) (s : Nat) (body : Bytes)
    (h2a : 200 ≤ s) (h2b : s ≤ 299) :
    Httputils.post u (.ok ()) (.ok { statusCode := s, bodyRead := .ok body }) =
      (if s = 201 then .ok body
       else .error (GoError.goMsg ("unexpected status code " ++ toString s))) ∧
    Httputils.get u (.ok ()) (.ok { statusCode := s, bodyRead := .ok body }) =
      (if s = 200 then .ok body
       else .error (GoError.goMsg ("unexpected status code " ++ toString s))) ∧
    Httputils.delete u (.ok ()) (.ok { statusCode := s, bodyRead := .ok body }) =
      (if s = 204 then none
       else some (GoError.goMsg ("unexpected status code " ++ toString s))) := by
  have h409 : s ≠ 409 := by omega
  have h400 : s ≠ 400 := by omega
  have h404 : s ≠ 404 := by omega
  refine ⟨?_, ?_, ?_⟩
  · by_cases h : s = 201 <;> simp [Httputils.post, h, h409, h400]
  · by_cases h : s = 200 <;> simp [Httputils.get, h, h404, h400]
  · by_cases h : s = 204 <;> simp [Httputils.delete, h, h404, h400]

/-- Witness for `success_range_exact_codes` at status 204: `Delete` succeeds
and `Post` reports `"unexpected status code 204"`. -/
theorem success_range_exact_codes_witness :
    (200 ≤ 204 ∧ 204 ≤ 299) ∧
    Httputils.delete (fun _ => .error (GoError.goMsg "unused")) (.ok ())
        (.ok { statusCode := 204, bodyRead := .ok [] }) = none ∧
    Httputils.post (fun _ => .error (GoError.goMsg "unused")) (.ok ())
        (.ok { statusCode := 204, bodyRead := .ok [] }) =
      .error (GoError.goMsg "unexpected status code 204") := by
  have h := success_range_exact_codes (fun _ => .error (GoError.goMsg "unused")) 204 []
    (by decide) (by decide)
  exact ⟨⟨by decide, by decide⟩, by simpa using h.2.2, by simpa using h.1⟩

/-- C2, counterexample: a 404 response on `Post` whose body parses as a
Failure Record with a non-empty message still yields
`"unexpected status code 404"`, because `Post` treats only 400 and 409 as API
failures. -/
theorem post_404_counterexample :
    Httputils.post (fun _ => .ok { errorMessage := "record does not exist", statusCode := 0 })
        (.ok ()) (.ok { statusCode := 404, bodyRead := .ok [123] }) =
      .error (GoError.goMsg "unexpected status code 404") ∧
    (GoError.goMsg "unexpected status code 404").message ≠
      "api failure with status code 404 and message: record does not exist" := by
  exact ⟨rfl, by decide⟩

/-- C2, amended: for every status ≥ 400 whose body parses as a Failure
Record with non-empty message `msg`, the `"api failure with status code
<status> and message: <msg>"` error (with the actual HTTP status recorded)
is produced exactly for the per-verb handled client-error codes — `Post` on
409/400, `Get` on 404/400, `Delete` on 400; every other status ≥ 400 yields
`"unexpected status code <status>"` instead, except `Delete` on 404, which
synthesizes the "not found" record without consulting the body. -/
theorem api_failure_handled_codes
    (u : Bytes → Except GoError ResponseError) (s : Nat) (body : Bytes)
    (msg : String) (k : Nat)
    (hu : u body = .ok { errorMessage := msg, statusCode := k })
    (hmsg : msg ≠ "") (hs : 400 ≤ s) :
    Httputils.post u (.ok ()) (.ok { statusCode := s, bodyRead := .ok body }) =
      (if s = 409 ∨ s = 400 then
        .error (GoError.respErr { errorMessage := msg, statusCode := s })
       else .error (GoError.goMsg ("unexpected status code " ++ toString s))) ∧
    Httputils.get u (.ok ()) (.ok { statusCode := s, bodyRead := .ok body }) =
      (if s = 404 ∨ s = 400 then
        .error (GoError.respErr { errorMessage := msg, statusCode := s })
       else .error (GoError.goMsg ("unexpected status code " ++ toString s))) ∧
    Httputils.delete u (.ok ()) (.ok { statusCode := s, bodyRead := .ok body }) =
      (if s = 400 then some (GoError.respErr { errorMessage := msg, statusCode := s })
       else if s = 404 then
        some (GoError.respErr { errorMessage := "not found", statusCode := 404 })
       else some (GoError.goMsg ("unexpected status code " ++ toString s))) ∧
    (GoError.respErr { errorMessage := msg, statusCode := s }).message =
      "api failure with status code " ++ toString s ++ " and message: " ++ msg := by
  have h201 : s ≠ 201 := by omega
  have h200 : s ≠ 200 := by omega
  have h204 : s ≠ 204 := by omega
  refine ⟨?_, ?_, ?_, by simp [GoError.message, ResponseError.error, hmsg]⟩
  · by_cases h : s = 409 ∨ s = 400
    · rw [if_pos h]
      rcases h with rfl | rfl <;> simp [Httputils.post, hu]
    · rw [if_neg h]
      simp [Httputils.post, h201, h]
  · by_cases h : s = 404 ∨ s = 400
    · rw [if_pos h]
      rcases h with rfl | rfl <;> simp [Httputils.get, hu]
    · rw [if_neg h]
      simp [Httputils.get, h200, h]
  · by_cases h400 : s = 400
    · subst h400
      simp [Httputils.delete, hu]
    · by_cases h404 : s = 404
      · subst h404
        simp [Httputils.delete]
      · simp [Httputils.delete, h204, h400, h404]

/-- Witness for `api_failure_handled_codes` at the handled status 400 with
message "validation failure" and at the unhandled status 410, which yields
the unexpected-status error on every verb. -/
theorem api_failure_handled_codes_witness :
    Httputils.post (fun _ => .ok { errorMessage := "validation failure", statusCode := 0 })
        (.ok ()) (.ok { statusCode := 400, bodyRead := .ok [] }) =
      .error (GoError.respErr { errorMessage := "validation failure", statusCode := 400 }) ∧
    (GoError.respErr { errorMessage := "validation failure", statusCode := 400 }).message =
      "api failure with status code 400 and message: validation failure" ∧
    Httputils.get (fun _ => .ok { errorMessage := "validation failure", statusCode := 0 })
        (.ok ()) (.ok { statusCode := 410, bodyRead := .ok [] }) =
      .error (GoError.goMsg "unexpected status code 410") ∧
    Httputils.delete (fun _ => .ok { errorMessage := "validation failure", statusCode := 0 })
        (.ok ()) (.ok { statusCode := 410, bodyRead := .ok [] }) =
      some (GoError.goMsg "unexpected status code 410") := by
  have h400 := api_failure_handled_codes
    (fun _ => .ok { errorMessage := "validation failure", statusCode := 0 }) 400 []
    "validation failure" 0 rfl (by decide) (by decide)
  have h410 := api_failure_handled_codes
    (fun _ => .ok { errorMessage := "validation failure", statusCode := 0 }) 410 []
    "validation failure" 0 rfl (by decide) (by decide)
  exact ⟨by simpa using h400.1, by simpa using h400.2.2.2,
    by simpa using h410.2.1, by simpa using h410.2.2.1⟩

/-- C4: when the injected `Do` capability fails with cause `e`, `Post` wraps
the cause as `"<cause>; failed to post data"`, while `Get` and `Delete`
return the cause unwrapped, with its message unchanged. -/
theorem transport_failure_wrap_asymmetry
    (u : Bytes → Except GoError ResponseError) (e : GoError) :
    Httputils.post u (.ok ()) (.error e) =
      .error (GoError.wrapped e "failed to post data") ∧
    (GoError.wrapped e "failed to post data").message =
      e.message ++ "; failed to post data" ∧
    Httputils.get u (.ok ()) (.error e) = .error e ∧
    Httputils.delete u (.ok ()) (.error e) = some e := by
  refine ⟨rfl, ?_, rfl, rfl⟩
  apply String.ext
  simp [GoError.message, String.data_append]

/-- C5: `Delete` on a 404 response with an empty body returns the synthesized
Failure Record `{ErrorMessage: "not found", StatusCode: 404}`, which renders
as `"api failure with status code 404 and message: not found"`. -/
theorem delete_404_empty_body_not_found
    (u : Bytes → Except GoError ResponseError) :
    Httputils.delete u (.ok ()) (.ok { statusCode := 404, bodyRead := .ok [] }) =
      some (GoError.respErr { errorMessage := "not found", statusCode := 404 }) ∧
    (GoError.respErr { errorMessage := "not found", statusCode := 404 }).message =
      "api failure with status code 404 and message: not found" := by
  exact ⟨rfl, by decide⟩

/-- C6: a Failure Record whose message field is empty renders as
`"api failure with status code <N> and no message received"`, with the
`", and message"` clause omitted. -/
theorem responseError_empty_message_rendering (n : Nat) :
    ResponseError.error { errorMessage := "", statusCode := n } =
      "api failure with status code " ++ toString n ++ " and no message received" ∧
    GoError.message (.respErr { errorMessage := "", statusCode := n }) =
      "api failure with status code " ++ toString n ++ " and no message received" := by
  constructor <;> simp [GoError.message, ResponseError.error]

/-- C7, counterexample: when `Get` succeeds but the response unmarshalling
fails with cause "boom happened", `FetchResource` returns the fresh error
`"failed to unmarshal response data"`, which does not contain the cause's
message — the cause is discarded, not wrapped. -/
theorem fetch_unmarshal_discards_cause :
    Accounts.fetchResource (.ok [1]) (fun _ => .error (GoError.goMsg "boom happened")) =
      .error (GoError.goMsg "failed to unmarshal response data") ∧
    strContains (GoError.goMsg "failed to unmarshal response data").message
      "boom happened" = false := by
  exact ⟨rfl, by decide⟩

/-- C7, amended: the resource-client operations wrap marshalling and transport
causes with a short trailing context, keeping the cause's message as a
substring of the returned error's message — except that a failure to
unmarshal the response body in `CreateResource` or `FetchResource` replaces
the cause with the fixed error `"failed to unmarshal response data"`. -/
theorem resource_client_error_wrapping
    (e : GoError) (b : Bytes)
    (postF : Bytes → Except GoError Bytes)
    (u : Bytes → Except GoError Accounts.AccountData) :
    Accounts.createResource (.error e) postF u =
      .error (GoError.wrapped e "unable to convert account data payload") ∧
    Accounts.createResource (.ok b) (fun _ => .error e) u =
      .error (GoError.wrapped e "unable to create resource") ∧
    Accounts.fetchResource (.error e) u =
      .error (GoError.wrapped e "unable to fetch resource") ∧
    Accounts.deleteResource (some e) =
      some (GoError.wrapped e "unable to delete resource") ∧
    strContains (GoError.wrapped e "unable to create resource").message e.message = true ∧
    strContains (GoError.wrapped e "unable to fetch resource").message e.message = true ∧
    strContains (GoError.wrapped e "unable to delete resource").message e.message = true ∧
    Accounts.createResource (.ok b) (fun _ => .ok b) (fun _ => .error e) =
      .error (GoError.goMsg "failed to unmarshal response data") ∧
    Accounts.fetchResource (.ok b) (fun _ => .error e) =
      .error (GoError.goMsg "failed to unmarshal response data") := by
  refine ⟨rfl, rfl, rfl, rfl, ?_, ?_, ?_, rfl, rfl⟩ <;>
    exact wrapped_message_contains e _

/-- C8: a status code outside both the 2xx success range and the 4xx
client-error range makes all three verbs return the error
`"unexpected status code <N>"`, and that is the whole rendered message. -/
theorem unexpected_status_outside_2xx_4xx
    (u : Bytes → Except GoError ResponseError) (s : Nat) (body : Bytes)
    (h2 : ¬(200 ≤ s ∧ s ≤ 299)) (h4 : ¬(400 ≤ s ∧ s ≤ 499)) :
    Httputils.post u (.ok ()) (.ok { statusCode := s, bodyRead := .ok body }) =
      .error (GoError.goMsg ("unexpected status code " ++ toString s)) ∧
    Httputils.get u (.ok ()) (.ok { statusCode := s, bodyRead := .ok body }) =
      .error (GoError.goMsg ("unexpected status code " ++ toString s)) ∧
    Httputils.delete u (.ok ()) (.ok { statusCode := s, bodyRead := .ok body }) =
      some (GoError.goMsg ("unexpected status code " ++ toString s)) ∧
    (GoError.goMsg ("unexpected status code " ++ toString s)).message =
      "unexpected status code " ++ toString s := by
  have h201 : s ≠ 201 := by omega
  have h200 : s ≠ 200 := by omega
  have h204 : s ≠ 204 := by omega
  have h409 : s ≠ 409 := by omega
  have h400 : s ≠ 400 := by omega
  have h404 : s ≠ 404 := by omega
  refine ⟨?_, ?_, ?_, rfl⟩
  · simp [Httputils.post, h201, h409, h400]
  · simp [Httputils.get, h200, h404, h400]
  · simp [Httputils.delete, h204, h404, h400]

/-- Witness for `unexpected_status_outside_2xx_4xx` at status 500 with an
empty body. -/
theorem unexpected_status_outside_2xx_4xx_witness :
    ¬((200 : Nat) ≤ 500 ∧ (500 : Nat) ≤ 299) ∧ ¬((400 : Nat) ≤ 500 ∧ (500 : Nat) ≤ 499) ∧
    Httputils.post (fun _ => .error (GoError.goMsg "unused")) (.ok ())
        (.ok { statusCode := 500, bodyRead := .ok [] }) =
      .error (GoError.goMsg "unexpected status code 500") := by
  have h := unexpected_status_outside_2xx_4xx (fun _ => .error (GoError.goMsg "unused"))
    500 [] (by omega) (by omega)
  exact ⟨by omega, by omega, by simpa using h.1⟩

/-- C9: `Delete` on a 404 response returns the synthesized "not found"
Failure Record for every possible body-read outcome — including a non-empty,
parseable body — and for every status other than 400 the result is
independent of both the body-read outcome and the unmarshaller: the body is
consulted only in the 400 branch. -/
theorem delete_404_ignores_body
    (u u1 u2 : Bytes → Except GoError ResponseError) (s : Nat)
    (br br1 br2 : Except GoError Bytes) :
    Httputils.delete u (.ok ()) (.ok { statusCode := 404, bodyRead := br }) =
      some (GoError.respErr { errorMessage := "not found", statusCode := 404 }) ∧
    (s ≠ 400 →
      Httputils.delete u1 (.ok ()) (.ok { statusCode := s, bodyRead := br1 }) =
      Httputils.delete u2 (.ok ()) (.ok { statusCode := s, bodyRead := br2 })) := by
  constructor
  · rfl
  · intro hs
    simp only [Httputils.delete]
    split_ifs <;> rfl

/-- Sanity check of the URL model: the request URL `Delete` builds for the
account resource path and `version=0` against base
`https://api.form3.tech`. -/
theorem deleteRequestURL_example :
    NetURL.bytesToStr (Httputils.deleteRequestURL
      { baseScheme := NetURL.strBytes "https", baseHost := NetURL.strBytes "api.form3.tech",
        timeoutSeconds := 30 }
      (NetURL.strBytes "/v1/organisation/accounts/ad27e265")
      [(NetURL.strBytes "version", NetURL.strBytes "0")]) =
    "https://api.form3.tech/v1/organisation/accounts/ad27e265?version=0" := by
  decide

/-- C3, counterexample: the base URI `"/foo"` has neither scheme nor host,
yet `url.ParseRequestURI` accepts it (an absolute path is a valid request
URI), so `NewClient` succeeds and stores an empty origin instead of failing
with an invalid-configuration error. -/
theorem newClient_schemeless_path_accepted :
    NetURL.parseRequestURI "/foo" =
      .ok { scheme := [], host := [], path := NetURL.strBytes "/foo" } ∧
    Httputils.newClient "/foo" 30 =
      .ok { baseScheme := [], baseHost := [], timeoutSeconds := 30 } := by
  exact ⟨by decide, by decide⟩

/-- C3, amended: `NewClient` fails — wrapping the parse error with
`"; invalid base uri"` — exactly when `url.ParseRequestURI` rejects the base
URI (e.g. a string with no scheme that does not start with `/`); strings
missing a scheme or host can still be accepted when they parse as request
URIs (absolute paths, opaque URIs).  On success the stored base origin is
exactly the scheme and host of the parsed URI, with its path and query
discarded. -/
theorem newClient_contract (s : String) (t : Int) :
    (∀ u, NetURL.parseRequestURI s = .ok u →
      Httputils.newClient s t =
        .ok { baseScheme := u.scheme, baseHost := u.host, timeoutSeconds := t }) ∧
    (∀ e, NetURL.parseRequestURI s = .error e →
      Httputils.newClient s t = .error (GoError.wrapped e "invalid base uri")) ∧
    Httputils.newClient "not-valid-url" 15 =
      .error (GoError.wrapped
        (GoError.urlErr "parse" "not-valid-url" (GoError.goMsg "invalid URI for request"))
        "invalid base uri") ∧
    Httputils.newClient "https://valid-url.com/some/path?q=1" 15 =
      .ok { baseScheme := NetURL.strBytes "https",
            baseHost := NetURL.strBytes "valid-url.com", timeoutSeconds := 15 } := by
  refine ⟨?_, ?_, by decide, by decide⟩
  · intro u hu
    simp [Httputils.newClient, hu]
  · intro e he
    simp [Httputils.newClient, he]

/-- Witness for `newClient_contract`: the base URI
`"https://valid-url.com/some/path?q=1"` parses with scheme `https` and host
`valid-url.com`, and the constructed client keeps only those. -/
theorem newClient_contract_witness :
    NetURL.parseRequestURI "https://valid-url.com/some/path?q=1" =
      .ok { scheme := NetURL.strBytes "https", host := NetURL.strBytes "valid-url.com",
            path := NetURL.strBytes "/some/path", rawQuery := NetURL.strBytes "q=1" } ∧
    Httputils.newClient "https://valid-url.com/some/path?q=1" 15 =
      .ok { baseScheme := NetURL.strBytes "https",
            baseHost := NetURL.strBytes "valid-url.com", timeoutSeconds := 15 } := by
  refine ⟨by decide, ?_⟩
  exact (newClient_contract "https://valid-url.com/some/path?q=1" 15).1
    { scheme := NetURL.strBytes "https", host := NetURL.strBytes "valid-url.com",
      path := NetURL.strBytes "/some/path", rawQuery := NetURL.strBytes "q=1" }
    (by decide)

/-- C10: two query maps holding the same key/value pairs (in any iteration
order) make `Delete` build the same request URL — `Values.Encode` sorts the
keys, so the URL is a function of the map contents only. -/
theorem delete_url_independent_of_query_order (c : Httputils.Client)
    (resourcePath : List Nat) (q1 q2 : List (List Nat × List Nat))
    (hperm : q1.Perm q2) (hnodup : (q1.map Prod.fst).Nodup) :
    Httputils.deleteRequestURL c resourcePath q1 =
      Httputils.deleteRequestURL c resourcePath q2 := by
  unfold Httputils.deleteRequestURL
  rw [NetURL.valuesEncode_perm q1 q2 hperm hnodup]

/-- Witness for `delete_url_independent_of_query_order` on the two orderings
of `{version: 7, a: b}`. -/
theorem delete_url_independent_of_query_order_witness :
    ([(NetURL.strBytes "version", NetURL.strBytes "7"),
      (NetURL.strBytes "a", NetURL.strBytes "b")].Perm
     [(NetURL.strBytes "a", NetURL.strBytes "b"),
      (NetURL.strBytes "version", NetURL.strBytes "7")]) ∧
    (([(NetURL.strBytes "version", NetURL.strBytes "7"),
       (NetURL.strBytes "a", NetURL.strBytes "b")].map Prod.fst).Nodup) ∧
    Httputils.deleteRequestURL
      { baseScheme := NetURL.strBytes "https", baseHost := NetURL.strBytes "api.form3.tech",
        timeoutSeconds := 30 }
      (NetURL.strBytes "/v1/organisation/accounts/x")
      [(NetURL.strBytes "version", NetURL.strBytes "7"),
       (NetURL.strBytes "a", NetURL.strBytes "b")] =
    Httputils.deleteRequestURL
      { baseScheme := NetURL.strBytes "https", baseHost := NetURL.strBytes "api.form3.tech",
        timeoutSeconds := 30 }
      (NetURL.strBytes "/v1/organisation/accounts/x")
      [(NetURL.strBytes "a", NetURL.strBytes "b"),
       (NetURL.strBytes "version", NetURL.strBytes "7")] := by
  have hp : [(NetURL.strBytes "version", NetURL.strBytes "7"),
      (NetURL.strBytes "a", NetURL.strBytes "b")].Perm
      [(NetURL.strBytes "a", NetURL.strBytes "b"),
       (NetURL.strBytes "version", NetURL.strBytes "7")] :=
    List.Perm.swap (NetURL.strBytes "a", NetURL.strBytes "b")
      (NetURL.strBytes "version", NetURL.strBytes "7") []
  have hn : (([(NetURL.strBytes "version", NetURL.strBytes "7"),
      (NetURL.strBytes "a", NetURL.strBytes "b")].map Prod.fst).Nodup) := by decide
  exact ⟨hp, hn, delete_url_independent_of_query_order _ _ _ _ hp hn⟩

/-- Witness for `delete_404_ignores_body` at status 404 with two different
non-empty, parseable bodies and unmarshallers. -/
theorem delete_404_ignores_body_witness :
    (404 : Nat) ≠ 400 ∧
    Httputils.delete (fun _ => .ok { errorMessage := "server supplied", statusCode := 0 })
        (.ok ()) (.ok { statusCode := 404, bodyRead := .ok [1] }) =
      Httputils.delete (fun _ => .error (GoError.goMsg "bad json")) (.ok ())
        (.ok { statusCode := 404, bodyRead := .error (GoError.goMsg "io failure") }) := by
  have h := delete_404_ignores_body
    (fun _ => .ok { errorMessage := "server supplied", statusCode := 0 })
    (fun _ => .ok { errorMessage := "server supplied", statusCode := 0 })
    (fun _ => .error (GoError.goMsg "bad json")) 404
    (.ok [1]) (.ok [1]) (.error (GoError.goMsg "io failure"))
  exact ⟨by decide, h.2 (by decide)⟩

end Form3
